import Mathlib

/-
Verification of the gotsunami load-generation core against its design
specification.

The Go sources are embedded shallowly:
  * `time.Duration` values (int64 nanoseconds) are modelled as `Int`;
    Go's integer division truncates toward zero, so it is `Int.tdiv`.
  * `float64` arithmetic on intensities and percentile factors is modelled
    as exact rational arithmetic (`ℚ`); every float literal in the sources
    (0.2, 0.5, 1.0, 1.5, percentile ranks 50/90/95/99/99.9) is taken at its
    written decimal value.  A `float64` division by zero yields `+Inf`,
    whose conversion to `time.Duration` is not a defined integer; that
    partiality is modelled by an `Option` result.
  * Go maps used only as counters (`map[int]int64`, `map[string]int64`,
    `map[string]string`) are modelled as association lists with unique
    keys; iteration order of `map` literals is fixed by the list order.
  * `error` values are modelled as `Option String`, carrying the text that
    `Error()` would return; `none` is the nil error.
-/

/-
§1  Load pattern and pacing — internal/engine/worker.go
-/

/-- Run configuration fields consumed by the worker pacing code
(config.LoadTestConfig, src/unnamed/part_001). -/
structure LoadTestConfig where
  duration : Int
  rampUp : Int
  rampDown : Int
  pattern : String
  delay : Int
  maxRequests : Int

/-- A phase of a load pattern (worker.go, `LoadPhase`). -/
structure LoadPhase where
  duration : Int
  intensity : ℚ

/-- A load pattern (worker.go, `LoadPattern`). -/
structure LoadPattern where
  ptype : String
  phases : List LoadPhase

/-- worker.go `calculateSpikePattern`: quarter at 0.2, quarter at 1.0,
half at 0.2. -/
def calculateSpikePattern (cfg : LoadTestConfig) : LoadPattern :=
  { ptype := "spike"
    phases := [ ⟨Int.tdiv cfg.duration 4, 2/10⟩,
                ⟨Int.tdiv cfg.duration 4, 1⟩,
                ⟨Int.tdiv cfg.duration 2, 2/10⟩ ] }

/-- worker.go `calculateSteadyPattern`: a ramp-up phase with intensity
field 0.0, a hold phase at 1.0, a ramp-down phase with intensity field
0.0.  The middle phase duration is `Duration - RampUp - RampDown`. -/
def calculateSteadyPattern (cfg : LoadTestConfig) : LoadPattern :=
  { ptype := "steady"
    phases := [ ⟨cfg.rampUp, 0⟩,
                ⟨cfg.duration - cfg.rampUp - cfg.rampDown, 1⟩,
                ⟨cfg.rampDown, 0⟩ ] }

/-- worker.go `calculateRampUpPattern`: one full-duration phase whose
intensity is produced by linear interpolation in `calculateIntensity`. -/
def calculateRampUpPattern (cfg : LoadTestConfig) : LoadPattern :=
  { ptype := "ramp-up", phases := [ ⟨cfg.duration, 0⟩ ] }

/-- worker.go `calculateStressPattern`: thirds at 0.5, 1.0, 1.5. -/
def calculateStressPattern (cfg : LoadTestConfig) : LoadPattern :=
  { ptype := "stress"
    phases := [ ⟨Int.tdiv cfg.duration 3, 5/10⟩,
                ⟨Int.tdiv cfg.duration 3, 1⟩,
                ⟨Int.tdiv cfg.duration 3, 15/10⟩ ] }

/-- worker.go `calculateLoadPattern`: string dispatch on the configured
pattern name, defaulting to the steady pattern. -/
def calculateLoadPattern (cfg : LoadTestConfig) : LoadPattern :=
  if cfg.pattern = "spike" then calculateSpikePattern cfg
  else if cfg.pattern = "steady" then calculateSteadyPattern cfg
  else if cfg.pattern = "ramp-up" then calculateRampUpPattern cfg
  else if cfg.pattern = "stress" then calculateStressPattern cfg
  else calculateSteadyPattern cfg

/-- The phase-search loop of worker.go `calculateDelay` (lines 185-191):
walk the phases accumulating `phaseStart`; return the first phase with
`elapsed < phaseStart + phase.Duration` together with its start offset,
or `none` when the loop falls through. -/
def findPhase (elapsed : Int) : List LoadPhase → Int → Option (LoadPhase × Int)
  | [], _ => none
  | ph :: rest, phaseStart =>
    if elapsed < phaseStart + ph.duration then some (ph, phaseStart)
    else findPhase elapsed rest (phaseStart + ph.duration)

/-- worker.go `calculateIntensity`: a zero-duration phase returns its fixed
intensity; otherwise linear progress through the phase is computed and
clamped above at 1.0, but it is returned only when the configured pattern
name is exactly "ramp-up" — every other pattern returns the phase's fixed
intensity field. -/
def calculateIntensity (patternName : String) (phase : LoadPhase) (elapsed : Int) : ℚ :=
  if phase.duration = 0 then phase.intensity
  else
    let progress0 : ℚ := (elapsed : ℚ) / (phase.duration : ℚ)
    let progress : ℚ := if progress0 > 1 then 1 else progress0
    if patternName = "ramp-up" then progress else phase.intensity

/-- The fixed base reference interval of worker.go `calculateDelay`:
100ms in nanoseconds. -/
def baseDelay : ℚ := 100000000

/-- The elapsed value worker.go `calculateDelay` actually uses
(line 179): `time.Since(time.Now().Add(-config.Duration))`, i.e. with the
two wall-clock reads `now1` (inner `time.Now()`) and `now2` (the read
inside `time.Since`) it is `now2 - (now1 - Duration)`.  It contains no
run-start timestamp. -/
def elapsedUsed (cfg : LoadTestConfig) (now1 now2 : Int) : Int :=
  now2 - (now1 - cfg.duration)

/-- The part of worker.go `calculateDelay` downstream of the elapsed
computation (lines 181-204): find the current phase, compute its
intensity, and convert intensity to a delay as `baseDelay / intensity`.
There is no special case for zero intensity in the source: a zero
intensity reaches the float division, whose result (`+Inf`, then a
conversion to `time.Duration` that is not a defined integer) is modelled
as `none`.  A missing phase returns delay 0. -/
def calculateDelayFrom (cfg : LoadTestConfig) (pat : LoadPattern) (elapsed : Int) : Option ℚ :=
  match findPhase elapsed pat.phases 0 with
  | none => some 0
  | some (ph, phaseStart) =>
    let intensity := calculateIntensity cfg.pattern ph (elapsed - phaseStart)
    if intensity = 0 then none
    else some (baseDelay / intensity)

/-- worker.go `calculateDelay` in full: derive the elapsed value from the
two wall-clock reads, then pace from it. -/
def calculateDelay (cfg : LoadTestConfig) (pat : LoadPattern) (now1 now2 : Int) : Option ℚ :=
  calculateDelayFrom cfg pat (elapsedUsed cfg now1 now2)

/-- The intensity the pacing code associates with a given elapsed offset:
phase lookup exactly as in `calculateDelay`, then `calculateIntensity`
on the offset within the phase; `none` when no phase window contains the
offset. -/
def intensityAt (cfg : LoadTestConfig) (elapsed : Int) : Option ℚ :=
  match findPhase elapsed (calculateLoadPattern cfg).phases 0 with
  | none => none
  | some (ph, phaseStart) => some (calculateIntensity cfg.pattern ph (elapsed - phaseStart))

/-- The run configuration of the spec's steady-pattern example and of the
CLI defaults (run.go): ramp-up 10s, ramp-down 5s, duration 30s, in
nanoseconds. -/
def steadyCfg : LoadTestConfig :=
  { duration := 30000000000, rampUp := 10000000000, rampDown := 5000000000
    pattern := "steady", delay := 0, maxRequests := 0 }

/-- A run configuration the CLI accepts unchecked: steady pattern with a
ramp-up longer than the whole run (no validation anywhere rejects it). -/
def longRampCfg : LoadTestConfig :=
  { duration := 30000000000, rampUp := 40000000000, rampDown := 0
    pattern := "steady", delay := 0, maxRequests := 0 }

/-
§2  Metrics collector — internal/metrics/collector.go (src/unnamed/part_005)
-/

/-- protocols.Response (src/unnamed/part_006): status code, single-valued
headers, body bytes, elapsed time, byte length, optional transport
failure. -/
structure GoResponse where
  statusCode : Int
  headers : List (String × String)
  body : List Char
  responseTime : Int
  contentLength : Int
  error : Option String
deriving DecidableEq

/-- Increment the counter stored under key `k`, inserting the key at count
1 when absent: the behaviour of `m[k]++` on a Go counter map. -/
def bump {κ : Type} [DecidableEq κ] (k : κ) : List (κ × Int) → List (κ × Int)
  | [] => [(k, 1)]
  | (k2, n) :: rest => if k2 = k then (k2, n + 1) :: rest else (k2, n) :: bump k rest

/-- Total count held across all buckets of a counter map. -/
def bucketTotal {κ : Type} (l : List (κ × Int)) : Int :=
  (l.map Prod.snd).sum

/-- The mutable state of metrics.Collector. -/
structure CollectorState where
  totalRequests : Int
  successfulRequests : Int
  failedRequests : Int
  totalBytes : Int
  latencies : List Int
  minLatency : Int
  maxLatency : Int
  totalLatency : Int
  statusCodes : List (Int × Int)
  errors : List (String × Int)
deriving DecidableEq

/-- metrics.NewCollector: all counters zero, all sequences and maps
empty. -/
def newCollector : CollectorState :=
  { totalRequests := 0, successfulRequests := 0, failedRequests := 0
    totalBytes := 0, latencies := [], minLatency := 0, maxLatency := 0
    totalLatency := 0, statusCodes := [], errors := [] }

/-- Collector.updateLatency: append the observation, add it to the running
sum, and update the running min/max — the min update fires when the stored
minimum is 0 (used as the unset sentinel) or the new value is smaller. -/
def updateLatency (c : CollectorState) (latency : Int) : CollectorState :=
  { c with
    latencies := c.latencies ++ [latency]
    totalLatency := c.totalLatency + latency
    minLatency := if c.minLatency = 0 ∨ latency < c.minLatency then latency else c.minLatency
    maxLatency := if latency > c.maxLatency then latency else c.maxLatency }

/-- Collector.updateStatusCode: bump the status-code bucket. -/
def updateStatusCode (c : CollectorState) (code : Int) : CollectorState :=
  { c with statusCodes := bump code c.statusCodes }

/-- Collector.recordError: a nil error returns immediately without
touching any bucket; otherwise the bucket keyed by `err.Error()` is
bumped. -/
def recordError (c : CollectorState) (err : Option String) : CollectorState :=
  match err with
  | none => c
  | some msg => { c with errors := bump msg c.errors }

/-- The failure test of Collector.RecordResponse:
`resp.Error != nil || resp.StatusCode >= 400`. -/
def isFailure (r : GoResponse) : Bool :=
  r.error.isSome || decide (r.statusCode ≥ 400)

/-- Collector.RecordResponse: bump total count and byte count, record the
latency and the status code, then classify as failure or success; a
failure also runs `recordError`. -/
def recordResponse (c : CollectorState) (resp : GoResponse) : CollectorState :=
  let c1 := { c with
    totalRequests := c.totalRequests + 1
    totalBytes := c.totalBytes + resp.contentLength }
  let c2 := updateLatency c1 resp.responseTime
  let c3 := updateStatusCode c2 resp.statusCode
  if isFailure resp then
    recordError { c3 with failedRequests := c3.failedRequests + 1 } resp.error
  else
    { c3 with successfulRequests := c3.successfulRequests + 1 }

/-- A finite sequence of RecordResponse calls on a collector. -/
def applyResponses (c : CollectorState) (rs : List GoResponse) : CollectorState :=
  rs.foldl recordResponse c

/-- The running-minimum recurrence of `updateLatency`, folded over a list
of latencies. -/
def runMin (m : Int) : List Int → Int
  | [] => m
  | x :: xs => runMin (if m = 0 ∨ x < m then x else m) xs

/-- The running-maximum recurrence of `updateLatency`, folded over a list
of latencies. -/
def runMax (m : Int) : List Int → Int
  | [] => m
  | x :: xs => runMax (if x > m then x else m) xs

/-- The inner loop of the exchange sort in Collector.calculateLatencyStats
(and utils.CalculatePercentile): the running value rides in slot `i`,
swapping with any later smaller element; the final slot value is returned
together with the rewritten tail. -/
def selectMin (x : Int) : List Int → Int × List Int
  | [] => (x, [])
  | y :: ys =>
    if x > y then
      let p := selectMin y ys
      (p.1, x :: p.2)
    else
      let p := selectMin x ys
      (p.1, y :: p.2)

/-- The outer loop of the exchange sort, with the list length as
structural fuel (the loop runs exactly `len` times in the source). -/
def exchangeSortAux : Nat → List Int → List Int
  | 0, _ => []
  | _, [] => []
  | fuel + 1, x :: xs =>
    let p := selectMin x xs
    p.1 :: exchangeSortAux fuel p.2

/-- The in-place exchange sort of Collector.calculateLatencyStats lines
202-208, ascending. -/
def exchangeSort (l : List Int) : List Int :=
  exchangeSortAux l.length l

/-- Collector.calculatePercentile: empty input yields 0; otherwise index
`int(float64(n-1) * p / 100)` into the sorted sample, clamped from above
to the last valid index.  (`utils.CalculatePercentile` in
src/unnamed/part_006 is the same computation.) -/
def calculatePercentile (sorted : List Int) (percentile : ℚ) : Int :=
  if sorted.length = 0 then 0
  else
    let index := (⌊((sorted.length : ℚ) - 1) * percentile / 100⌋).toNat
    let index := if sorted.length ≤ index then sorted.length - 1 else index
    sorted.getD index 0

/-- The latency block of the summary (metrics.LatencyStats). -/
structure LatencyStats where
  min : Int
  max : Int
  mean : Int
  median : Int
  p90 : Int
  p95 : Int
  p99 : Int
  p999 : Int
deriving DecidableEq

/-- Collector.calculateLatencyStats: sort a copy of the latencies, then
report the running min/max, the truncating mean, and the percentile table
at ranks 50/90/95/99/99.9. -/
def calculateLatencyStats (c : CollectorState) : LatencyStats :=
  if c.latencies.length = 0 then ⟨0, 0, 0, 0, 0, 0, 0, 0⟩
  else
    let sorted := exchangeSort c.latencies
    { min := c.minLatency
      max := c.maxLatency
      mean := Int.tdiv c.totalLatency c.latencies.length
      median := calculatePercentile sorted 50
      p90 := calculatePercentile sorted 90
      p95 := calculatePercentile sorted 95
      p99 := calculatePercentile sorted 99
      p999 := calculatePercentile sorted (999/10) }

/-
§3  Response validation — internal/validation/response_validator.go

The body regex (Go regexp) and the body JSON path query (gjson) are
opaque third-party matchers; they are modelled as abstract boolean
matchers on the body.  `ResponseTimeMax` is a duration string parsed by
`time.ParseDuration`; scenario loading rejects unparsable values before a
run starts (config.ValidationConfig.Validate), so it is modelled as the
already-parsed optional duration and the validator's `config_error`
branches (unparsable duration, uncompilable regex) are outside the model.
The `Message` field of ValidationResult is free-form diagnostic text and
is not modelled.
-/

/-- config.ValidationConfig, as seen by the validator. -/
structure ValidationConfig where
  statusCodes : List Int
  responseTimeMax : Option Int
  bodyContains : List (List Char)
  bodyNotContains : List (List Char)
  bodyRegex : Option (List Char → Bool)
  bodyJSONPath : Option (List Char → Bool)
  headers : List (String × String)
  minResponseSize : Int
  maxResponseSize : Int

/-- validation.ValidationResult without the diagnostic message. -/
structure ValidationResult where
  passed : Bool
  errorType : String
deriving DecidableEq

/-- Whether `sub` is a leading segment of `s` (the probe that a substring
search performs at each offset). -/
def leadsWith : List Char → List Char → Bool
  | [], _ => true
  | _ :: _, [] => false
  | c :: cs, d :: ds => c == d && leadsWith cs ds

/-- Go `strings.Contains s sub`: `sub` occurs contiguously in `s`. -/
def goContains : List Char → List Char → Bool
  | [], sub => sub.isEmpty
  | c :: rest, sub => leadsWith sub (c :: rest) || goContains rest sub

/-- The status-code loop of validateStatusCode: is the observed code in
the allow-list? -/
def statusAllowed : List Int → Int → Bool
  | [], _ => false
  | c :: rest, s => if c = s then true else statusAllowed rest s

/-- validateStatusCode: an empty allow-list passes any status; otherwise
pass exactly the listed codes, failing with kind status_code. -/
def validateStatusCode (cfg : ValidationConfig) (statusCode : Int) : ValidationResult :=
  if cfg.statusCodes.isEmpty then ⟨true, ""⟩
  else if statusAllowed cfg.statusCodes statusCode then ⟨true, ""⟩
  else ⟨false, "status_code"⟩

/-- validateResponseTime: with no configured maximum pass; otherwise fail
with kind response_time when the observed time exceeds it. -/
def validateResponseTime (cfg : ValidationConfig) (responseTime : Int) : ValidationResult :=
  match cfg.responseTimeMax with
  | none => ⟨true, ""⟩
  | some maxTime => if responseTime > maxTime then ⟨false, "response_time"⟩ else ⟨true, ""⟩

/-- validateResponseSize: a configured (positive) minimum or maximum body
size outside of which the size fails with kind response_size. -/
def validateResponseSize (cfg : ValidationConfig) (size : Int) : ValidationResult :=
  if cfg.minResponseSize > 0 ∧ size < cfg.minResponseSize then ⟨false, "response_size"⟩
  else if cfg.maxResponseSize > 0 ∧ size > cfg.maxResponseSize then ⟨false, "response_size"⟩
  else ⟨true, ""⟩

/-- The required-substrings loop of validateBody: first missing required
string fails with kind body_content. -/
def checkBodyContains (body : List Char) : List (List Char) → ValidationResult
  | [] => ⟨true, ""⟩
  | required :: rest =>
    if !goContains body required then ⟨false, "body_content"⟩
    else checkBodyContains body rest

/-- The forbidden-substrings loop of validateBody: first present forbidden
string fails with kind body_content. -/
def checkBodyNotContains (body : List Char) : List (List Char) → ValidationResult
  | [] => ⟨true, ""⟩
  | forbidden :: rest =>
    if goContains body forbidden then ⟨false, "body_content"⟩
    else checkBodyNotContains body rest

/-- validateJSONPath: an empty body never matches; otherwise the gjson
query decides. -/
def validateJSONPath (body : List Char) (query : List Char → Bool) : Bool :=
  if body.isEmpty then false else query body

/-- validateBody: required substrings, then forbidden substrings, then the
regex (kind body_regex), then the JSON path (kind body_json_path). -/
def validateBody (cfg : ValidationConfig) (body : List Char) : ValidationResult :=
  let r1 := checkBodyContains body cfg.bodyContains
  if !r1.passed then r1
  else
    let r2 := checkBodyNotContains body cfg.bodyNotContains
    if !r2.passed then r2
    else
      let r3 := match cfg.bodyRegex with
        | none => (⟨true, ""⟩ : ValidationResult)
        | some matcher => if !matcher body then ⟨false, "body_regex"⟩ else ⟨true, ""⟩
      if !r3.passed then r3
      else
        match cfg.bodyJSONPath with
        | none => ⟨true, ""⟩
        | some query =>
          if !validateJSONPath body query then ⟨false, "body_json_path"⟩ else ⟨true, ""⟩

/-- Go map lookup on single-valued response headers. -/
def lookupStr : List (String × String) → String → Option String
  | [], _ => none
  | (k, v) :: rest, key => if k = key then some v else lookupStr rest key

/-- The header loop of validateHeaders: a missing required header fails
with kind header_missing, a wrong value with kind header_value. -/
def checkHeaders (hs : List (String × String)) : List (String × String) → ValidationResult
  | [] => ⟨true, ""⟩
  | (expectedHeader, expectedValue) :: rest =>
    match lookupStr hs expectedHeader with
    | none => ⟨false, "header_missing"⟩
    | some actualValue =>
      if actualValue ≠ expectedValue then ⟨false, "header_value"⟩
      else checkHeaders hs rest

/-- validateHeaders: nothing configured passes; otherwise run the header
loop. -/
def validateHeaders (cfg : ValidationConfig) (hs : List (String × String)) : ValidationResult :=
  if cfg.headers.isEmpty then ⟨true, ""⟩
  else checkHeaders hs cfg.headers

/-- ResponseValidator.Validate: transport failure short-circuits with kind
request_error, then each rule family runs in the fixed source order,
returning the first non-passing result; otherwise passed. -/
def validate (cfg : ValidationConfig) (resp : GoResponse) : ValidationResult :=
  if resp.error.isSome then ⟨false, "request_error"⟩
  else
    let r1 := validateStatusCode cfg resp.statusCode
    if !r1.passed then r1
    else
      let r2 := validateResponseTime cfg resp.responseTime
      if !r2.passed then r2
      else
        let r3 := validateResponseSize cfg resp.contentLength
        if !r3.passed then r3
        else
          let r4 := validateBody cfg resp.body
          if !r4.passed then r4
          else
            let r5 := validateHeaders cfg resp.headers
            if !r5.passed then r5
            else ⟨true, ""⟩

/-- Rule `i` of the spec's fixed evaluation order fails on this response:
0 transport failure, 1 status code, 2 response time, 3 response size,
4 required substrings, 5 forbidden substrings, 6 regex, 7 JSON path,
8 headers. -/
def ruleFails (cfg : ValidationConfig) (r : GoResponse) : Nat → Bool
  | 0 => r.error.isSome
  | 1 => !cfg.statusCodes.isEmpty && !statusAllowed cfg.statusCodes r.statusCode
  | 2 => match cfg.responseTimeMax with
    | none => false
    | some maxTime => decide (r.responseTime > maxTime)
  | 3 => (decide (cfg.minResponseSize > 0) && decide (r.contentLength < cfg.minResponseSize)) ||
         (decide (cfg.maxResponseSize > 0) && decide (r.contentLength > cfg.maxResponseSize))
  | 4 => cfg.bodyContains.any (fun s => !goContains r.body s)
  | 5 => cfg.bodyNotContains.any (fun s => goContains r.body s)
  | 6 => match cfg.bodyRegex with
    | none => false
    | some matcher => !matcher r.body
  | 7 => match cfg.bodyJSONPath with
    | none => false
    | some query => !validateJSONPath r.body query
  | 8 => cfg.headers.any (fun kv => (lookupStr r.headers kv.1).elim true (fun v => v ≠ kv.2))
  | _ => false

/-- The earliest failing rule in the fixed order, if any. -/
def firstFailing (cfg : ValidationConfig) (r : GoResponse) : Option Nat :=
  if ruleFails cfg r 0 then some 0
  else if ruleFails cfg r 1 then some 1
  else if ruleFails cfg r 2 then some 2
  else if ruleFails cfg r 3 then some 3
  else if ruleFails cfg r 4 then some 4
  else if ruleFails cfg r 5 then some 5
  else if ruleFails cfg r 6 then some 6
  else if ruleFails cfg r 7 then some 7
  else if ruleFails cfg r 8 then some 8
  else none

/-- The failure kinds rule `i` may report. -/
def ruleKinds : Nat → List String
  | 0 => ["request_error"]
  | 1 => ["status_code"]
  | 2 => ["response_time"]
  | 3 => ["response_size"]
  | 4 => ["body_content"]
  | 5 => ["body_content"]
  | 6 => ["body_regex"]
  | 7 => ["body_json_path"]
  | 8 => ["header_missing", "header_value"]
  | _ => []

/-
§4  Engine run sequence — internal/engine (src/unnamed/part_004)
-/

/-- The externally visible steps of LoadEngine.Run, in source order. -/
inductive EngineEvent where
  | collectorStart
  | spawnWorkers
  | waitDurationOrTimeout
  | collectorStop
  | workersJoin
  | protocolClose
  | getSummary
deriving DecidableEq

/-- LoadEngine.Run lines 75-113: start the collector, launch the workers,
block on the context deadline or the grace timeout, stop the collector,
wait on the worker WaitGroup, close the protocol client, read the
summary. -/
def runSequence : List EngineEvent :=
  [ .collectorStart, .spawnWorkers, .waitDurationOrTimeout,
    .collectorStop, .workersJoin, .protocolClose, .getSummary ]

/-- Position of the first occurrence of an event in a sequence (length of
the sequence when absent). -/
def posOf (e : EngineEvent) : List EngineEvent → Nat
  | [] => 0
  | x :: xs => if x = e then 0 else posOf e xs + 1

/-
§5  HTTP protocol client — internal/protocols/http/client.go

The three fallible steps of HTTPClient.Execute (request construction,
transport round-trip, body read) are external effects; an execution is
modelled by which step failed, or by the observed wire response.
-/

/-- Outcome of the externally-effectful steps of one Execute call:
`t` is the measured elapsed time at the failure or completion point. -/
inductive ExecOutcome where
  | createReqErr (msg : String) (t : Int)
  | doErr (msg : String) (t : Int)
  | readBodyErr (msg : String) (t : Int)
  | wireOk (status : Int) (hs : List (String × String)) (body : List Char) (t : Int)
deriving DecidableEq

/-- HTTPClient.createErrorResponse: status 0, empty header map, empty
body, the observed elapsed time, and the non-nil error. -/
def createErrorResponse (msg : String) (t : Int) : GoResponse :=
  { statusCode := 0, headers := [], body := [], responseTime := t
    contentLength := 0, error := some msg }

/-- HTTPClient.Execute: every failure path wraps the error into a
response via createErrorResponse and returns a nil Go error; the success
path builds the response with ContentLength = len(body) and a nil Error
field.  The second component is the Go error returned to the caller. -/
def execute (o : ExecOutcome) : GoResponse × Option String :=
  match o with
  | .createReqErr msg t => (createErrorResponse msg t, none)
  | .doErr msg t => (createErrorResponse msg t, none)
  | .readBodyErr msg t => (createErrorResponse msg t, none)
  | .wireOk status hs body t =>
    ({ statusCode := status, headers := hs, body := body, responseTime := t
       contentLength := body.length, error := none }, none)

/-
§6  Theorems
-/

/-- A ramp-up-pattern run configuration (duration 30s), used to contrast
the linear ramp-up rule with the steady pattern's fixed phases. -/
def rampCfg : LoadTestConfig :=
  { duration := 30000000000, rampUp := 10000000000, rampDown := 5000000000
    pattern := "ramp-up", delay := 0, maxRequests := 0 }

/-- C1 counterexample: for the steady pattern with ramp-up 10s, ramp-down
5s, duration 30s, the intensity at elapsed t = 27.5s (mid ramp-down) is 0,
not the 0.5 the claim's linear rule requires — the steady pattern's ramp
phases are not linearly interpolated. -/
theorem steady_midrampdown_intensity_is_zero :
    intensityAt steadyCfg 27500000000 = some 0 ∧
    intensityAt steadyCfg 27500000000 ≠ some (1/2) := by
  have h : intensityAt steadyCfg 27500000000 = some 0 := by decide
  refine ⟨h, ?_⟩
  rw [h]
  intro hc
  have h2 : (0 : ℚ) = 1/2 := Option.some.inj hc
  norm_num at h2

/-- C1 amended: for the steady pattern with ramp-up 10s, ramp-down 5s,
duration 30s, the intensity is 0 at t = 0, 1.0 at t = 10s, 0 at t = 27.5s,
and no phase is active at t = 30s; throughout the ramp-down window
[25s, 30s) the intensity is the phase's fixed value 0 — only the
`ramp-up` pattern uses linear progress (e.g. 0.5 at 15s of a 30s run). -/
theorem steady_pattern_intensity_table :
    intensityAt steadyCfg 0 = some 0 ∧
    intensityAt steadyCfg 10000000000 = some 1 ∧
    intensityAt steadyCfg 27500000000 = some 0 ∧
    intensityAt steadyCfg 30000000000 = none ∧
    intensityAt rampCfg 15000000000 = some (1/2) ∧
    ∀ t : Int, 25000000000 ≤ t → t < 30000000000 → intensityAt steadyCfg t = some 0 := by
  refine ⟨by decide, by decide, by decide, by decide, ?_, ?_⟩
  · norm_num [intensityAt, calculateLoadPattern, calculateRampUpPattern, rampCfg,
      findPhase, calculateIntensity]
  · intro t h1 h2
    have e1 : ¬ (t < 0 + (10000000000 : Int)) := by omega
    have e2 : ¬ (t < 0 + (10000000000 : Int) + (30000000000 - 10000000000 - 5000000000)) := by
      omega
    have e3 : t < 0 + (10000000000 : Int) + (30000000000 - 10000000000 - 5000000000) +
        5000000000 := by omega
    have hs1 : ¬ (("steady" : String) = "spike") := by decide
    have hs3 : ¬ (("steady" : String) = "ramp-up") := by decide
    have hd : ¬ ((5000000000 : Int) = 0) := by decide
    simp only [intensityAt, calculateLoadPattern, calculateSteadyPattern, steadyCfg,
      findPhase, calculateIntensity, e1, e2, e3, hs1, hs3, hd, if_true, if_false,
      ite_true, ite_false, eq_self_iff_true]

/-- C1 amended, witness: an instant inside the steady ramp-down window
where the amended claim's fixed intensity 0 is observed. -/
theorem steady_pattern_intensity_table_witness :
    intensityAt steadyCfg 26000000000 = some 0 :=
  steady_pattern_intensity_table.2.2.2.2.2 26000000000 (by decide) (by decide)

/-- C2: the delay computation has no special case for zero intensity — it
computes `100ms / intensity` unguarded.  With the CLI-accepted
configuration ramp-up 40s, duration 30s (steady pattern), a worker tick
lands in the first phase with intensity 0 and the division by zero is
reached at run time (modelled `none`: float `+Inf`, not an idle tick).
Under the claim's reading of elapsed as an input, the default steady
configuration likewise divides by zero at every instant of its ramp
phases, e.g. t = 0. -/
theorem delay_divides_by_zero_intensity :
    intensityAt longRampCfg (elapsedUsed longRampCfg 0 0) = some 0 ∧
    calculateDelay longRampCfg (calculateLoadPattern longRampCfg) 0 0 = none ∧
    calculateDelayFrom steadyCfg (calculateLoadPattern steadyCfg) 0 = none := by
  refine ⟨by decide, by decide, by decide⟩

/-- C3: the pacing computation takes no elapsed-time input; it derives its
elapsed value from two fresh wall-clock reads as
`now2 - (now1 - Duration)`.  The derived value equals the configured
duration plus the gap between the two reads — identical at run start and
mid-run (so it never reflects run progress), yet sensitive to the gap
between the two clock reads.  Every tick of the default steady
configuration therefore finds no active phase and returns delay 0. -/
theorem pacing_elapsed_ignores_run_start :
    elapsedUsed steadyCfg 0 0 = 30000000000 ∧
    elapsedUsed steadyCfg 15000000000 15000000000 = 30000000000 ∧
    elapsedUsed steadyCfg 0 7 = 30000000007 ∧
    calculateDelay steadyCfg (calculateLoadPattern steadyCfg) 0 0 = some 0 ∧
    calculateDelay steadyCfg (calculateLoadPattern steadyCfg) 15000000000 15000000000 =
      some 0 := by
  refine ⟨by decide, by decide, by decide, by decide, by decide⟩

/-- C8 counterexample: in LoadEngine.Run the collector is stopped before
the engine waits on the worker WaitGroup, so it is false that the engine
waits for all workers to join before stopping the collector. -/
theorem run_does_not_join_before_stop :
    ¬ (posOf .workersJoin runSequence < posOf .collectorStop runSequence) := by
  decide

/-- C8 amended: LoadEngine.Run stops the collector immediately after the
duration/grace-timeout wait and only then waits for the workers to join;
the summary read still happens after the join (workers still in flight
may therefore record responses after Stop). -/
theorem run_sequence_order :
    posOf .collectorStart runSequence = 0 ∧
    posOf .collectorStop runSequence < posOf .workersJoin runSequence ∧
    posOf .waitDurationOrTimeout runSequence < posOf .collectorStop runSequence ∧
    posOf .workersJoin runSequence < posOf .getSummary runSequence := by
  decide

/-- C10: HTTPClient.Execute returns a nil Go error on every path; each of
the three failure paths (request construction, transport, body read)
yields the createErrorResponse value — status code 0, empty headers,
empty body, non-nil Error — and the success path carries a nil Error with
ContentLength equal to the body length. -/
theorem execute_always_nil_error :
    (∀ o : ExecOutcome, (execute o).2 = none) ∧
    (∀ msg t, (execute (.createReqErr msg t)).1 = createErrorResponse msg t) ∧
    (∀ msg t, (execute (.doErr msg t)).1 = createErrorResponse msg t) ∧
    (∀ msg t, (execute (.readBodyErr msg t)).1 = createErrorResponse msg t) ∧
    (∀ msg t, (createErrorResponse msg t).statusCode = 0 ∧
      (createErrorResponse msg t).body = [] ∧
      (createErrorResponse msg t).headers = [] ∧
      (createErrorResponse msg t).error = some msg) ∧
    (∀ status hs body t, (execute (.wireOk status hs body t)).1.error = none ∧
      (execute (.wireOk status hs body t)).1.contentLength = body.length) := by
  refine ⟨fun o => ?_, fun msg t => rfl, fun msg t => rfl, fun msg t => rfl,
    fun msg t => ⟨rfl, rfl, rfl, rfl⟩, fun status hs body t => ⟨rfl, rfl⟩⟩
  cases o <;> rfl

/-- Field-level description of one RecordResponse call: the total grows by
one; exactly one of the success/failure counters grows by one, failure
exactly when the response carries a non-nil error or a status of at least
400; the error buckets are bumped at the error text exactly when the error
is non-nil; the latency is appended and the running min/max are updated
with the 0-as-unset sentinel rule. -/
theorem recordResponse_fields (c : CollectorState) (r : GoResponse) :
    (recordResponse c r).totalRequests = c.totalRequests + 1 ∧
    (recordResponse c r).failedRequests =
      (if isFailure r then c.failedRequests + 1 else c.failedRequests) ∧
    (recordResponse c r).successfulRequests =
      (if isFailure r then c.successfulRequests else c.successfulRequests + 1) ∧
    (recordResponse c r).errors =
      (match r.error with
       | none => c.errors
       | some msg => bump msg c.errors) ∧
    (recordResponse c r).latencies = c.latencies ++ [r.responseTime] ∧
    (recordResponse c r).minLatency =
      (if c.minLatency = 0 ∨ r.responseTime < c.minLatency then r.responseTime
       else c.minLatency) ∧
    (recordResponse c r).maxLatency =
      (if r.responseTime > c.maxLatency then r.responseTime else c.maxLatency) := by
  cases hr : r.error with
  | none =>
    by_cases hf : isFailure r
    · simp [recordResponse, updateLatency, updateStatusCode, recordError, hr, hf]
    · simp [recordResponse, updateLatency, updateStatusCode, recordError, hr, hf]
  | some msg =>
    have hf : isFailure r := by simp [isFailure, hr]
    simp [recordResponse, updateLatency, updateStatusCode, recordError, hr, hf]

/-- Bumping a counter map adds exactly one to the total across buckets. -/
theorem bucketTotal_bump {κ : Type} [DecidableEq κ] (k : κ) (l : List (κ × Int)) :
    bucketTotal (bump k l) = bucketTotal l + 1 := by
  induction l with
  | nil => simp [bump, bucketTotal]
  | cons p rest ih =>
    obtain ⟨k2, n⟩ := p
    by_cases h : k2 = k
    · simp [bump, bucketTotal, h]
      ring
    · simp only [bump, if_neg h, bucketTotal, List.map_cons, List.sum_cons] at *
      omega

/-- Accumulated form of a RecordResponse sequence: latencies are the
response times in order, the running min/max follow the updateLatency
recurrences, the error-bucket total counts exactly the responses with a
non-nil error, and the failure counter counts exactly the responses
satisfying the failure test. -/
theorem applyResponses_fields (rs : List GoResponse) : ∀ c : CollectorState,
    (applyResponses c rs).latencies = c.latencies ++ rs.map (fun r => r.responseTime) ∧
    (applyResponses c rs).minLatency = runMin c.minLatency (rs.map (fun r => r.responseTime)) ∧
    (applyResponses c rs).maxLatency = runMax c.maxLatency (rs.map (fun r => r.responseTime)) ∧
    bucketTotal (applyResponses c rs).errors =
      bucketTotal c.errors + ((rs.filter (fun r => r.error.isSome)).length : Int) ∧
    (applyResponses c rs).failedRequests =
      c.failedRequests + ((rs.filter (fun r => isFailure r)).length : Int) ∧
    (applyResponses c rs).totalRequests = c.totalRequests + rs.length ∧
    (applyResponses c rs).successfulRequests + (applyResponses c rs).failedRequests =
      c.successfulRequests + c.failedRequests + rs.length := by
  induction rs with
  | nil => intro c; simp [applyResponses, runMin, runMax]
  | cons r rest ih =>
    intro c
    have hstep := recordResponse_fields c r
    have hrest := ih (recordResponse c r)
    have happ : applyResponses c (r :: rest) = applyResponses (recordResponse c r) rest := by
      simp [applyResponses]
    rw [happ]
    obtain ⟨h1, h2, h3, h4, h5, h6, h7⟩ := hstep
    obtain ⟨g1, g2, g3, g4, g5, g6, g7⟩ := hrest
    refine ⟨?_, ?_, ?_, ?_, ?_, ?_, ?_⟩
    · rw [g1, h5]; simp
    · rw [g2, h6]; simp [runMin]
    · rw [g3, h7]; simp [runMax]
    · rw [g4]
      cases hr : r.error with
      | none =>
        rw [h4]
        simp [hr]
      | some msg =>
        rw [h4]
        simp only [hr, bucketTotal_bump]
        have : (r :: rest).filter (fun r => r.error.isSome) =
            r :: rest.filter (fun r => r.error.isSome) := by
          simp [List.filter_cons, hr]
        rw [this]
        simp
        omega
    · rw [g5, h2]
      by_cases hf : isFailure r
      · simp [List.filter_cons, hf]
        omega
      · simp [List.filter_cons, hf]
    · rw [g6, h1]
      simp
      omega
    · rw [g7, h2, h3]
      by_cases hf : isFailure r
      · simp only [hf, if_true]
        simp
        omega
      · simp only [hf, if_false]
        simp
        omega

/-- C4: after any finite RecordResponse sequence on a fresh collector the
total equals successes plus failures and equals the number of calls; each
call adds one to the total and one to exactly one of the success/failure
counters, failure exactly when the response has a non-nil error or a
status of at least 400. -/
theorem collector_total_is_success_plus_failure :
    (∀ rs : List GoResponse,
      (applyResponses newCollector rs).totalRequests =
        (applyResponses newCollector rs).successfulRequests +
          (applyResponses newCollector rs).failedRequests ∧
      (applyResponses newCollector rs).totalRequests = rs.length) ∧
    (∀ (c : CollectorState) (r : GoResponse),
      (recordResponse c r).totalRequests = c.totalRequests + 1 ∧
      (recordResponse c r).failedRequests =
        (if isFailure r then c.failedRequests + 1 else c.failedRequests) ∧
      (recordResponse c r).successfulRequests =
        (if isFailure r then c.successfulRequests else c.successfulRequests + 1) ∧
      (isFailure r = true ↔ (r.error ≠ none ∨ r.statusCode ≥ 400))) := by
  constructor
  · intro rs
    obtain ⟨-, -, -, -, -, h6, h7⟩ := applyResponses_fields rs newCollector
    rw [h6, h7]
    simp [newCollector]
  · intro c r
    obtain ⟨h1, h2, h3, -, -, -, -⟩ := recordResponse_fields c r
    refine ⟨h1, h2, h3, ?_⟩
    simp [isFailure, Option.isSome_iff_ne_none, Bool.or_eq_true, decide_eq_true_iff]

/-- A failing response carrying no Go error: HTTP status 500 with a nil
transport error. -/
def resp500 : GoResponse :=
  { statusCode := 500, headers := [], body := [], responseTime := 1
    contentLength := 0, error := none }

/-- C9 counterexample: recording a status-500 response with a nil error on
a fresh collector increments the failure count to 1 yet leaves the error
buckets empty — no bucket (in particular no "unknown" bucket) is
incremented, so the bucket total differs from the failure count. -/
theorem nil_error_failure_has_no_bucket :
    (recordResponse newCollector resp500).failedRequests = 1 ∧
    (recordResponse newCollector resp500).errors = [] ∧
    bucketTotal (recordResponse newCollector resp500).errors ≠
      (recordResponse newCollector resp500).failedRequests := by
  refine ⟨by decide, by decide, by decide⟩

/-- C9 amended: a failing RecordResponse increments the failure count, and
increments the bucket keyed by the error's text only when the response
carries a non-nil error; a failure with a nil error changes no bucket
(there is no default "unknown" key), so across any call sequence the
bucket total equals the number of responses with a non-nil error rather
than the failure count. -/
theorem error_buckets_count_nonnil_errors :
    (∀ (c : CollectorState) (r : GoResponse),
      (recordResponse c r).failedRequests =
        (if isFailure r then c.failedRequests + 1 else c.failedRequests) ∧
      (recordResponse c r).errors =
        (match r.error with
         | none => c.errors
         | some msg => bump msg c.errors)) ∧
    (∀ rs : List GoResponse,
      bucketTotal (applyResponses newCollector rs).errors =
        ((rs.filter (fun r => r.error.isSome)).length : Int) ∧
      (applyResponses newCollector rs).failedRequests =
        ((rs.filter (fun r => isFailure r)).length : Int)) := by
  constructor
  · intro c r
    obtain ⟨-, h2, -, h4, -, -, -⟩ := recordResponse_fields c r
    exact ⟨h2, h4⟩
  · intro rs
    obtain ⟨-, -, -, h4, h5, -, -⟩ := applyResponses_fields rs newCollector
    rw [h4, h5]
    simp [newCollector, bucketTotal]

/-- C5: the percentile computation is nearest-rank: the returned value is
the element of the ascending sample at index floor((n-1) * p / 100),
clamped to the last valid index (the clamp is expressed by `min`), and on
the sample {100,200,300,400,500} rank 50 gives 300, rank 90 gives 400 and
rank 0 gives 100. -/
theorem percentile_nearest_rank :
    (∀ (l : List Int) (p : ℚ),
      calculatePercentile l p =
        l.getD (min ((⌊((l.length : ℚ) - 1) * p / 100⌋).toNat) (l.length - 1)) 0) ∧
    calculatePercentile [100, 200, 300, 400, 500] 50 = 300 ∧
    calculatePercentile [100, 200, 300, 400, 500] 90 = 400 ∧
    calculatePercentile [100, 200, 300, 400, 500] 0 = 100 := by
  refine ⟨?_, ?_, ?_, ?_⟩
  · intro l p
    by_cases hlen : l.length = 0
    · rw [List.length_eq_zero] at hlen
      subst hlen
      simp [calculatePercentile]
    · simp only [calculatePercentile, if_neg hlen]
      split
      · congr 1
        omega
      · congr 1
        omega
  · norm_num [calculatePercentile, Int.toNat_ofNat]
    rfl
  · norm_num [calculatePercentile, Int.toNat_ofNat]
    rfl
  · norm_num [calculatePercentile, Int.toNat_ofNat]

/-- The rewritten tail of one inner-loop pass has the same length. -/
theorem selectMin_snd_length (l : List Int) : ∀ x : Int,
    (selectMin x l).2.length = l.length := by
  induction l with
  | nil => intro x; rfl
  | cons y ys ih =>
    intro x
    simp only [selectMin]
    split
    · simp [ih y]
    · simp [ih x]

/-- One inner-loop pass permutes the slot value together with the tail. -/
theorem selectMin_perm (l : List Int) : ∀ x : Int,
    List.Perm ((selectMin x l).1 :: (selectMin x l).2) (x :: l) := by
  induction l with
  | nil => intro x; rfl
  | cons y ys ih =>
    intro x
    simp only [selectMin]
    split
    · exact (List.Perm.swap x (selectMin y ys).1 (selectMin y ys).2).trans ((ih y).cons x)
    · exact ((List.Perm.swap y (selectMin x ys).1 (selectMin x ys).2).trans
        ((ih x).cons y)).trans (List.Perm.swap x y ys)

/-- The value left in the slot after one inner-loop pass is a lower bound
for the initial slot value and for every element scanned. -/
theorem selectMin_fst_le (l : List Int) : ∀ x : Int,
    (selectMin x l).1 ≤ x ∧ ∀ y ∈ l, (selectMin x l).1 ≤ y := by
  induction l with
  | nil => intro x; exact ⟨le_refl x, by simp⟩
  | cons y ys ih =>
    intro x
    simp only [selectMin]
    split
    · rename_i hgt
      obtain ⟨h1, h2⟩ := ih y
      refine ⟨le_of_lt (lt_of_le_of_lt h1 hgt), ?_⟩
      intro z hz
      rcases List.mem_cons.mp hz with hz | hz
      · exact hz ▸ h1
      · exact h2 z hz
    · rename_i hle
      obtain ⟨h1, h2⟩ := ih x
      refine ⟨h1, ?_⟩
      intro z hz
      rcases List.mem_cons.mp hz with hz | hz
      · rw [hz]
        exact le_trans h1 (not_lt.mp hle)
      · exact h2 z hz

/-- The slot value bounds every element of the rewritten tail. -/
theorem selectMin_fst_le_snd (l : List Int) (x : Int) :
    ∀ z ∈ (selectMin x l).2, (selectMin x l).1 ≤ z := by
  intro z hz
  have hmem : z ∈ x :: l := (selectMin_perm l x).mem_iff.mp (List.mem_cons_of_mem _ hz)
  rcases List.mem_cons.mp hmem with h | h
  · exact h ▸ (selectMin_fst_le l x).1
  · exact (selectMin_fst_le l x).2 z h

/-- With enough fuel, the exchange sort permutes its input. -/
theorem exchangeSortAux_perm : ∀ (fuel : Nat) (l : List Int), l.length ≤ fuel →
    List.Perm (exchangeSortAux fuel l) l := by
  intro fuel
  induction fuel with
  | zero =>
    intro l hl
    have : l = [] := List.length_eq_zero.mp (Nat.le_zero.mp hl)
    subst this
    rfl
  | succ n ih =>
    intro l hl
    cases l with
    | nil => rfl
    | cons x xs =>
      simp only [exchangeSortAux]
      have hlen : (selectMin x xs).2.length ≤ n := by
        rw [selectMin_snd_length xs x]
        simpa using hl
      exact ((ih (selectMin x xs).2 hlen).cons (selectMin x xs).1).trans (selectMin_perm xs x)

/-- With enough fuel, the exchange sort produces an ascending list. -/
theorem exchangeSortAux_sorted : ∀ (fuel : Nat) (l : List Int), l.length ≤ fuel →
    List.Sorted (· ≤ ·) (exchangeSortAux fuel l) := by
  intro fuel
  induction fuel with
  | zero => intro l hl; simp [exchangeSortAux]
  | succ n ih =>
    intro l hl
    cases l with
    | nil => simp [exchangeSortAux]
    | cons x xs =>
      simp only [exchangeSortAux]
      have hlen : (selectMin x xs).2.length ≤ n := by
        rw [selectMin_snd_length xs x]
        simpa using hl
      rw [List.sorted_cons]
      refine ⟨?_, ih (selectMin x xs).2 hlen⟩
      intro b hb
      have hb2 : b ∈ (selectMin x xs).2 := (exchangeSortAux_perm n _ hlen).mem_iff.mp hb
      exact selectMin_fst_le_snd xs x b hb2

/-- The sort of calculateLatencyStats permutes the latency sample. -/
theorem exchangeSort_perm (l : List Int) : List.Perm (exchangeSort l) l :=
  exchangeSortAux_perm l.length l (le_refl _)

/-- The sort of calculateLatencyStats yields an ascending list. -/
theorem exchangeSort_sorted (l : List Int) : List.Sorted (· ≤ ·) (exchangeSort l) :=
  exchangeSortAux_sorted l.length l (le_refl _)

/-- The running minimum with positive start and positive data bounds the
start value and every element. -/
theorem runMin_le_forall (l : List Int) : ∀ m : Int, 0 < m → (∀ x ∈ l, 0 < x) →
    runMin m l ≤ m ∧ ∀ x ∈ l, runMin m l ≤ x := by
  induction l with
  | nil => intro m hm hl; exact ⟨le_refl m, by simp⟩
  | cons x xs ih =>
    intro m hm hl
    have hx : 0 < x := hl x (List.mem_cons_self x xs)
    have hxs : ∀ y ∈ xs, 0 < y := fun y hy => hl y (List.mem_cons_of_mem x hy)
    simp only [runMin]
    by_cases hc : m = 0 ∨ x < m
    · rw [if_pos hc]
      obtain ⟨h1, h2⟩ := ih x hx hxs
      have hxm : x ≤ m := by
        rcases hc with hc | hc
        · omega
        · exact le_of_lt hc
      exact ⟨le_trans h1 hxm, fun y hy => by
        rcases List.mem_cons.mp hy with hy | hy
        · exact hy ▸ h1
        · exact h2 y hy⟩
    · rw [if_neg hc]
      obtain ⟨h1, h2⟩ := ih m hm hxs
      push_neg at hc
      exact ⟨h1, fun y hy => by
        rcases List.mem_cons.mp hy with hy | hy
        · exact hy ▸ (le_trans h1 hc.2)
        · exact h2 y hy⟩

/-- Starting from the 0 sentinel on a positive sample, the running minimum
bounds every element. -/
theorem runMin_zero_le (l : List Int) (hl : ∀ x ∈ l, 0 < x) :
    ∀ x ∈ l, runMin 0 l ≤ x := by
  cases l with
  | nil => simp
  | cons x xs =>
    have hx : 0 < x := hl x (List.mem_cons_self x xs)
    have hxs : ∀ y ∈ xs, 0 < y := fun y hy => hl y (List.mem_cons_of_mem x hy)
    have hstep : runMin 0 (x :: xs) = runMin x xs := by
      simp [runMin]
    rw [hstep]
    obtain ⟨h1, h2⟩ := runMin_le_forall xs x hx hxs
    intro y hy
    rcases List.mem_cons.mp hy with hy | hy
    · exact hy ▸ h1
    · exact h2 y hy

/-- The running maximum bounds its start value and every element. -/
theorem runMax_ge_forall (l : List Int) : ∀ m : Int,
    m ≤ runMax m l ∧ ∀ x ∈ l, x ≤ runMax m l := by
  induction l with
  | nil => intro m; exact ⟨le_refl m, by simp⟩
  | cons x xs ih =>
    intro m
    simp only [runMax]
    by_cases hc : x > m
    · rw [if_pos hc]
      obtain ⟨h1, h2⟩ := ih x
      exact ⟨le_trans (le_of_lt hc) h1, fun y hy => by
        rcases List.mem_cons.mp hy with hy | hy
        · exact hy ▸ h1
        · exact h2 y hy⟩
    · rw [if_neg hc]
      obtain ⟨h1, h2⟩ := ih m
      push_neg at hc
      exact ⟨h1, fun y hy => by
        rcases List.mem_cons.mp hy with hy | hy
        · exact hy ▸ (le_trans hc h1)
        · exact h2 y hy⟩

/-- calculatePercentile in clamped-getD form, for any sample and rank. -/
theorem calculatePercentile_getD (l : List Int) (p : ℚ) :
    calculatePercentile l p =
      l.getD (min ((⌊((l.length : ℚ) - 1) * p / 100⌋).toNat) (l.length - 1)) 0 := by
  by_cases hlen : l.length = 0
  · rw [List.length_eq_zero] at hlen
    subst hlen
    simp [calculatePercentile]
  · simp only [calculatePercentile, if_neg hlen]
    split
    · congr 1
      omega
    · congr 1
      omega

/-- On an ascending list, values at increasing valid indices ascend. -/
theorem sorted_getD_mono (l : List Int) (hs : List.Sorted (· ≤ ·) l)
    (i j : Nat) (hij : i ≤ j) (hj : j < l.length) : l.getD i 0 ≤ l.getD j 0 := by
  have hi : i < l.length := lt_of_le_of_lt hij hj
  rw [List.getD_eq_getElem l 0 hi, List.getD_eq_getElem l 0 hj]
  have h2 : l.get ⟨i, hi⟩ ≤ l.get ⟨j, hj⟩ := hs.rel_get_of_le (Fin.mk_le_mk.mpr hij)
  simpa using h2

/-- The nearest-rank index is monotone in the rank. -/
theorem percentileIdx_mono (n : Nat) (hn : 0 < n) (p q : ℚ) (hpq : p ≤ q) :
    (⌊((n : ℚ) - 1) * p / 100⌋).toNat ≤ (⌊((n : ℚ) - 1) * q / 100⌋).toNat := by
  have hn1 : (0 : ℚ) ≤ (n : ℚ) - 1 := by
    have h1 : (1 : ℚ) ≤ (n : ℚ) := by exact_mod_cast hn
    linarith
  have hmul : ((n : ℚ) - 1) * p ≤ ((n : ℚ) - 1) * q := mul_le_mul_of_nonneg_left hpq hn1
  have hdiv : ((n : ℚ) - 1) * p / 100 ≤ ((n : ℚ) - 1) * q / 100 := by linarith
  exact Int.toNat_le_toNat (Int.floor_le_floor hdiv)

/-- Every percentile of a non-empty sample is an element of the sample. -/
theorem percentile_mem (l : List Int) (hne : l ≠ []) (p : ℚ) :
    calculatePercentile l p ∈ l := by
  rw [calculatePercentile_getD]
  have hn : 0 < l.length := List.length_pos.mpr hne
  have hk : min ((⌊((l.length : ℚ) - 1) * p / 100⌋).toNat) (l.length - 1) < l.length := by
    have := min_le_right ((⌊((l.length : ℚ) - 1) * p / 100⌋).toNat) (l.length - 1)
    omega
  rw [List.getD_eq_getElem l 0 hk]
  exact List.getElem_mem hk

/-- Percentiles of an ascending sample are monotone in the rank. -/
theorem percentile_rank_mono (l : List Int) (hs : List.Sorted (· ≤ ·) l) (hne : l ≠ [])
    (p q : ℚ) (hpq : p ≤ q) :
    calculatePercentile l p ≤ calculatePercentile l q := by
  rw [calculatePercentile_getD, calculatePercentile_getD]
  have hn : 0 < l.length := List.length_pos.mpr hne
  apply sorted_getD_mono l hs
  · exact min_le_min (percentileIdx_mono l.length hn p q hpq) (le_refl _)
  · have := min_le_right ((⌊((l.length : ℚ) - 1) * q / 100⌋).toNat) (l.length - 1)
    omega

/-- A successful response with latency `t` and no other metric content. -/
def respLat (t : Int) : GoResponse :=
  { statusCode := 200, headers := [], body := [], responseTime := t
    contentLength := 0, error := none }

/-- C6 counterexample: recording latencies 0 then 5 makes the running
minimum 5 (the 0 sentinel marks the minimum as unset, so the second
observation overwrites the genuine minimum 0) while the reported median of
the sorted sample [0, 5] is 0 — the claimed chain min ≤ P50 fails. -/
theorem zero_latency_breaks_min_median :
    (calculateLatencyStats (applyResponses newCollector [respLat 0, respLat 5])).min = 5 ∧
    (calculateLatencyStats (applyResponses newCollector [respLat 0, respLat 5])).median = 0 ∧
    ¬ ((calculateLatencyStats (applyResponses newCollector [respLat 0, respLat 5])).min ≤
       (calculateLatencyStats (applyResponses newCollector [respLat 0, respLat 5])).median) := by
  have hst : applyResponses newCollector [respLat 0, respLat 5] =
      { totalRequests := 2, successfulRequests := 2, failedRequests := 0, totalBytes := 0
        latencies := [0, 5], minLatency := 5, maxLatency := 5, totalLatency := 5
        statusCodes := [(200, 2)], errors := [] } := by decide
  rw [hst]
  norm_num [calculateLatencyStats, exchangeSort, exchangeSortAux, selectMin,
    calculatePercentile]

/-- C6 amended: provided every recorded latency is positive (the running
minimum uses 0 as its unset sentinel, so a zero latency can corrupt the
reported minimum), the summary latency block of any non-empty
RecordResponse sequence satisfies min ≤ P50 ≤ P90 ≤ P95 ≤ P99 ≤ P99.9 ≤
max. -/
theorem latency_stats_ordered (rs : List GoResponse) (hne : rs ≠ [])
    (hpos : ∀ r ∈ rs, 0 < r.responseTime) :
    (calculateLatencyStats (applyResponses newCollector rs)).min ≤
      (calculateLatencyStats (applyResponses newCollector rs)).median ∧
    (calculateLatencyStats (applyResponses newCollector rs)).median ≤
      (calculateLatencyStats (applyResponses newCollector rs)).p90 ∧
    (calculateLatencyStats (applyResponses newCollector rs)).p90 ≤
      (calculateLatencyStats (applyResponses newCollector rs)).p95 ∧
    (calculateLatencyStats (applyResponses newCollector rs)).p95 ≤
      (calculateLatencyStats (applyResponses newCollector rs)).p99 ∧
    (calculateLatencyStats (applyResponses newCollector rs)).p99 ≤
      (calculateLatencyStats (applyResponses newCollector rs)).p999 ∧
    (calculateLatencyStats (applyResponses newCollector rs)).p999 ≤
      (calculateLatencyStats (applyResponses newCollector rs)).max := by
  obtain ⟨hlat, hmin, hmax, -, -, -, -⟩ := applyResponses_fields rs newCollector
  have hlat2 : (applyResponses newCollector rs).latencies =
      rs.map (fun r => r.responseTime) := by
    rw [hlat]
    simp [newCollector]
  have hmin2 : (applyResponses newCollector rs).minLatency =
      runMin 0 (rs.map (fun r => r.responseTime)) := by
    rw [hmin]
    simp [newCollector]
  have hmax2 : (applyResponses newCollector rs).maxLatency =
      runMax 0 (rs.map (fun r => r.responseTime)) := by
    rw [hmax]
    simp [newCollector]
  have hLpos : ∀ x ∈ rs.map (fun r => r.responseTime), 0 < x := by
    intro x hx
    obtain ⟨r, hr, hrx⟩ := List.mem_map.mp hx
    rw [← hrx]
    exact hpos r hr
  have hLne : rs.map (fun r => r.responseTime) ≠ [] := by
    simpa using hne
  have hguard : ¬ ((applyResponses newCollector rs).latencies.length = 0) := by
    rw [hlat2]
    simpa [List.length_eq_zero] using hLne
  have hsorted := exchangeSort_sorted (rs.map (fun r => r.responseTime))
  have hperm := exchangeSort_perm (rs.map (fun r => r.responseTime))
  have hsne : exchangeSort (rs.map (fun r => r.responseTime)) ≠ [] := by
    intro h
    have h2 : List.Perm [] (rs.map (fun r => r.responseTime)) := h ▸ hperm
    exact hLne h2.symm.eq_nil
  have hstats : calculateLatencyStats (applyResponses newCollector rs) =
      { min := (applyResponses newCollector rs).minLatency
        max := (applyResponses newCollector rs).maxLatency
        mean := Int.tdiv (applyResponses newCollector rs).totalLatency
          (applyResponses newCollector rs).latencies.length
        median := calculatePercentile (exchangeSort (applyResponses newCollector rs).latencies) 50
        p90 := calculatePercentile (exchangeSort (applyResponses newCollector rs).latencies) 90
        p95 := calculatePercentile (exchangeSort (applyResponses newCollector rs).latencies) 95
        p99 := calculatePercentile (exchangeSort (applyResponses newCollector rs).latencies) 99
        p999 := calculatePercentile (exchangeSort (applyResponses newCollector rs).latencies)
          (999/10) } := by
    simp only [calculateLatencyStats, if_neg hguard]
  rw [hstats]
  simp only [hlat2, hmin2, hmax2]
  refine ⟨?_, ?_, ?_, ?_, ?_, ?_⟩
  · have hmem : calculatePercentile (exchangeSort (rs.map (fun r => r.responseTime))) 50 ∈
        rs.map (fun r => r.responseTime) :=
      hperm.mem_iff.mp (percentile_mem _ hsne 50)
    exact runMin_zero_le _ hLpos _ hmem
  · exact percentile_rank_mono _ hsorted hsne 50 90 (by norm_num)
  · exact percentile_rank_mono _ hsorted hsne 90 95 (by norm_num)
  · exact percentile_rank_mono _ hsorted hsne 95 99 (by norm_num)
  · exact percentile_rank_mono _ hsorted hsne 99 (999/10) (by norm_num)
  · have hmem : calculatePercentile (exchangeSort (rs.map (fun r => r.responseTime))) (999/10) ∈
        rs.map (fun r => r.responseTime) :=
      hperm.mem_iff.mp (percentile_mem _ hsne (999/10))
    exact (runMax_ge_forall _ 0).2 _ hmem

/-- C6 amended, witness: a concrete positive-latency sequence on which the
percentile chain is observed. -/
theorem latency_stats_ordered_witness :
    (calculateLatencyStats (applyResponses newCollector [respLat 3])).min ≤
      (calculateLatencyStats (applyResponses newCollector [respLat 3])).median ∧
    (calculateLatencyStats (applyResponses newCollector [respLat 3])).median ≤
      (calculateLatencyStats (applyResponses newCollector [respLat 3])).p90 ∧
    (calculateLatencyStats (applyResponses newCollector [respLat 3])).p90 ≤
      (calculateLatencyStats (applyResponses newCollector [respLat 3])).p95 ∧
    (calculateLatencyStats (applyResponses newCollector [respLat 3])).p95 ≤
      (calculateLatencyStats (applyResponses newCollector [respLat 3])).p99 ∧
    (calculateLatencyStats (applyResponses newCollector [respLat 3])).p99 ≤
      (calculateLatencyStats (applyResponses newCollector [respLat 3])).p999 ∧
    (calculateLatencyStats (applyResponses newCollector [respLat 3])).p999 ≤
      (calculateLatencyStats (applyResponses newCollector [respLat 3])).max :=
  latency_stats_ordered [respLat 3] (by decide)
    (by
      intro r hr
      rcases List.mem_singleton.mp hr with h
      rw [h]
      decide)

/-- The required-substrings loop in branch form. -/
theorem checkBodyContains_eq (body : List Char) (lst : List (List Char)) :
    checkBodyContains body lst =
      if lst.any (fun s => !goContains body s) then ⟨false, "body_content"⟩
      else ⟨true, ""⟩ := by
  induction lst with
  | nil => simp [checkBodyContains]
  | cons s rest ih =>
    simp only [checkBodyContains, List.any_cons]
    by_cases h : goContains body s
    · simp [h, ih]
    · simp [h]

/-- The forbidden-substrings loop in branch form. -/
theorem checkBodyNotContains_eq (body : List Char) (lst : List (List Char)) :
    checkBodyNotContains body lst =
      if lst.any (fun s => goContains body s) then ⟨false, "body_content"⟩
      else ⟨true, ""⟩ := by
  induction lst with
  | nil => simp [checkBodyNotContains]
  | cons s rest ih =>
    simp only [checkBodyNotContains, List.any_cons]
    by_cases h : goContains body s
    · simp [h]
    · simp [h, ih]

/-- The header loop passes exactly when no required pair is missing or
mismatched, and otherwise reports one of the two header kinds. -/
theorem checkHeaders_spec (hs : List (String × String)) (lst : List (String × String)) :
    (lst.any (fun kv => (lookupStr hs kv.1).elim true (fun v => v ≠ kv.2)) = false →
      checkHeaders hs lst = ⟨true, ""⟩) ∧
    (lst.any (fun kv => (lookupStr hs kv.1).elim true (fun v => v ≠ kv.2)) = true →
      (checkHeaders hs lst).passed = false ∧
      ((checkHeaders hs lst).errorType = "header_missing" ∨
       (checkHeaders hs lst).errorType = "header_value")) := by
  induction lst with
  | nil => simp [checkHeaders]
  | cons kv rest ih =>
    obtain ⟨k, v⟩ := kv
    simp only [checkHeaders, List.any_cons]
    cases hlk : lookupStr hs k with
    | none => simp
    | some av =>
      by_cases hv : av = v
      · simpa [hlk, hv] using ih
      · simp [hlk, hv]

/-- validateStatusCode in branch form. -/
theorem validateStatusCode_eq (cfg : ValidationConfig) (sc : Int) :
    validateStatusCode cfg sc =
      if !cfg.statusCodes.isEmpty && !statusAllowed cfg.statusCodes sc then
        ⟨false, "status_code"⟩
      else ⟨true, ""⟩ := by
  by_cases h1 : cfg.statusCodes.isEmpty <;>
    by_cases h2 : statusAllowed cfg.statusCodes sc <;>
      simp [validateStatusCode, h1, h2]

/-- validateResponseTime in branch form. -/
theorem validateResponseTime_eq (cfg : ValidationConfig) (t : Int) :
    validateResponseTime cfg t =
      if (match cfg.responseTimeMax with
          | none => false
          | some maxTime => decide (t > maxTime)) then ⟨false, "response_time"⟩
      else ⟨true, ""⟩ := by
  cases hm : cfg.responseTimeMax with
  | none => simp [validateResponseTime, hm]
  | some maxTime =>
    by_cases ht : t > maxTime <;> simp [validateResponseTime, hm, ht]

/-- validateResponseSize in branch form. -/
theorem validateResponseSize_eq (cfg : ValidationConfig) (n : Int) :
    validateResponseSize cfg n =
      if (decide (cfg.minResponseSize > 0) && decide (n < cfg.minResponseSize)) ||
         (decide (cfg.maxResponseSize > 0) && decide (n > cfg.maxResponseSize)) then
        ⟨false, "response_size"⟩
      else ⟨true, ""⟩ := by
  by_cases h1 : cfg.minResponseSize > 0 ∧ n < cfg.minResponseSize
  · simp [validateResponseSize, h1.1, h1.2]
  · by_cases h2 : cfg.maxResponseSize > 0 ∧ n > cfg.maxResponseSize
    · rcases not_and_or.mp h1 with h | h <;>
        simp [validateResponseSize, h, h2.1, h2.2, not_and_or.mp h1]
    · rcases not_and_or.mp h1 with h | h <;> rcases not_and_or.mp h2 with g | g <;>
        simp [validateResponseSize, h, g, not_and_or.mp h1, not_and_or.mp h2]

/-- validateBody in branch form: the four body rules in source order with
their kinds. -/
theorem validateBody_eq (cfg : ValidationConfig) (body : List Char) :
    validateBody cfg body =
      if cfg.bodyContains.any (fun s => !goContains body s) then ⟨false, "body_content"⟩
      else if cfg.bodyNotContains.any (fun s => goContains body s) then ⟨false, "body_content"⟩
      else if (match cfg.bodyRegex with
               | none => false
               | some matcher => !matcher body) then ⟨false, "body_regex"⟩
      else if (match cfg.bodyJSONPath with
               | none => false
               | some query => !validateJSONPath body query) then ⟨false, "body_json_path"⟩
      else ⟨true, ""⟩ := by
  simp only [validateBody, checkBodyContains_eq, checkBodyNotContains_eq]
  by_cases b4 : cfg.bodyContains.any (fun s => !goContains body s)
  · simp [b4]
  · simp only [b4, if_false, Bool.false_eq_true]
    by_cases b5 : cfg.bodyNotContains.any (fun s => goContains body s)
    · simp [b5]
    · simp only [b5, if_false, Bool.false_eq_true]
      cases hr : cfg.bodyRegex with
      | none =>
        simp only []
        cases hj : cfg.bodyJSONPath with
        | none => simp
        | some query =>
          by_cases hq : validateJSONPath body query <;> simp [hq]
      | some matcher =>
        by_cases hm : matcher body
        · simp only [hm, Bool.not_true, if_false]
          cases hj : cfg.bodyJSONPath with
          | none => simp
          | some query =>
            by_cases hq : validateJSONPath body query <;> simp [hq]
        · simp [hm]

/-- validateHeaders passes exactly when no configured pair fails, and
otherwise reports one of the two header kinds. -/
theorem validateHeaders_spec (cfg : ValidationConfig) (hs : List (String × String)) :
    (cfg.headers.any (fun kv => (lookupStr hs kv.1).elim true (fun v => v ≠ kv.2)) = false →
      validateHeaders cfg hs = ⟨true, ""⟩) ∧
    (cfg.headers.any (fun kv => (lookupStr hs kv.1).elim true (fun v => v ≠ kv.2)) = true →
      (validateHeaders cfg hs).passed = false ∧
      ((validateHeaders cfg hs).errorType = "header_missing" ∨
       (validateHeaders cfg hs).errorType = "header_value")) := by
  by_cases he : cfg.headers.isEmpty
  · have : cfg.headers = [] := List.isEmpty_iff.mp he
    simp [validateHeaders, he, this]
  · simpa [validateHeaders, he] using checkHeaders_spec hs cfg.headers

/-- C7: the validator evaluates the rules in the fixed order transport
failure, status code, response time, response size, body-contains,
body-not-contains, body-regex, body-JSON-path, headers, and
short-circuits: the result passes exactly when no configured rule fails
(an empty status allow-list accepting any status), and otherwise carries
the kind of the earliest failing rule in that order. -/
theorem validator_first_failing_rule (cfg : ValidationConfig) (r : GoResponse) :
    ((validate cfg r).passed = true ↔ firstFailing cfg r = none) ∧
    (∀ i : Nat, firstFailing cfg r = some i →
      (validate cfg r).passed = false ∧ (validate cfg r).errorType ∈ ruleKinds i) := by
  by_cases b0 : ruleFails cfg r 0 = true
  · have h0 : r.error.isSome = true := by simpa [ruleFails] using b0
    have hv : validate cfg r = ⟨false, "request_error"⟩ := by simp [validate, h0]
    have hf : firstFailing cfg r = some 0 := by simp [firstFailing, b0]
    rw [hv, hf]
    refine ⟨by simp, ?_⟩
    intro i hi
    rw [Option.some.injEq] at hi
    subst hi
    simp [ruleKinds]
  · have b0f : ruleFails cfg r 0 = false := by simpa using b0
    have h0 : r.error.isSome = false := by simpa [ruleFails] using b0f
    by_cases b1 : ruleFails cfg r 1 = true
    · have b1e : (!cfg.statusCodes.isEmpty && !statusAllowed cfg.statusCodes r.statusCode) =
          true := by simpa [ruleFails] using b1
      have hv : validate cfg r = ⟨false, "status_code"⟩ := by
        simp [validate, h0, validateStatusCode_eq, b1e]
      have hf : firstFailing cfg r = some 1 := by simp [firstFailing, b0f, b1]
      rw [hv, hf]
      refine ⟨by simp, ?_⟩
      intro i hi
      rw [Option.some.injEq] at hi
      subst hi
      simp [ruleKinds]
    · have b1f : ruleFails cfg r 1 = false := by simpa using b1
      have b1e : (!cfg.statusCodes.isEmpty && !statusAllowed cfg.statusCodes r.statusCode) =
          false := by simpa [ruleFails] using b1f
      by_cases b2 : ruleFails cfg r 2 = true
      · have b2e : (match cfg.responseTimeMax with
            | none => false
            | some maxTime => decide (r.responseTime > maxTime)) = true := by
          simpa [ruleFails] using b2
        have hv : validate cfg r = ⟨false, "response_time"⟩ := by
          simp [validate, h0, validateStatusCode_eq, b1e, validateResponseTime_eq, b2e]
        have hf : firstFailing cfg r = some 2 := by simp [firstFailing, b0f, b1f, b2]
        rw [hv, hf]
        refine ⟨by simp, ?_⟩
        intro i hi
        rw [Option.some.injEq] at hi
        subst hi
        simp [ruleKinds]
      · have b2f : ruleFails cfg r 2 = false := by simpa using b2
        have b2e : (match cfg.responseTimeMax with
            | none => false
            | some maxTime => decide (r.responseTime > maxTime)) = false := by
          simpa [ruleFails] using b2f
        by_cases b3 : ruleFails cfg r 3 = true
        · have b3e : ((decide (cfg.minResponseSize > 0) &&
              decide (r.contentLength < cfg.minResponseSize)) ||
              (decide (cfg.maxResponseSize > 0) &&
              decide (r.contentLength > cfg.maxResponseSize))) = true := by
            simpa [ruleFails] using b3
          have hv : validate cfg r = ⟨false, "response_size"⟩ := by
            simp [validate, h0, validateStatusCode_eq, b1e, validateResponseTime_eq, b2e,
              validateResponseSize_eq, b3e]
          have hf : firstFailing cfg r = some 3 := by simp [firstFailing, b0f, b1f, b2f, b3]
          rw [hv, hf]
          refine ⟨by simp, ?_⟩
          intro i hi
          rw [Option.some.injEq] at hi
          subst hi
          simp [ruleKinds]
        · have b3f : ruleFails cfg r 3 = false := by simpa using b3
          have b3e : ((decide (cfg.minResponseSize > 0) &&
              decide (r.contentLength < cfg.minResponseSize)) ||
              (decide (cfg.maxResponseSize > 0) &&
              decide (r.contentLength > cfg.maxResponseSize))) = false := by
            simpa [ruleFails] using b3f
          by_cases b4 : ruleFails cfg r 4 = true
          · have b4e : (cfg.bodyContains.any (fun s => !goContains r.body s)) = true := by
              simpa [ruleFails] using b4
            have hv : validate cfg r = ⟨false, "body_content"⟩ := by
              simp [validate, h0, validateStatusCode_eq, b1e, validateResponseTime_eq, b2e,
                validateResponseSize_eq, b3e, validateBody_eq, b4e]
            have hf : firstFailing cfg r = some 4 := by
              simp [firstFailing, b0f, b1f, b2f, b3f, b4]
            rw [hv, hf]
            refine ⟨by simp, ?_⟩
            intro i hi
            rw [Option.some.injEq] at hi
            subst hi
            simp [ruleKinds]
          · have b4f : ruleFails cfg r 4 = false := by simpa using b4
            have b4e : (cfg.bodyContains.any (fun s => !goContains r.body s)) = false := by
              simpa [ruleFails] using b4f
            by_cases b5 : ruleFails cfg r 5 = true
            · have b5e : (cfg.bodyNotContains.any (fun s => goContains r.body s)) = true := by
                simpa [ruleFails] using b5
              have hv : validate cfg r = ⟨false, "body_content"⟩ := by
                simp [validate, h0, validateStatusCode_eq, b1e, validateResponseTime_eq, b2e,
                  validateResponseSize_eq, b3e, validateBody_eq, b4e, b5e]
              have hf : firstFailing cfg r = some 5 := by
                simp [firstFailing, b0f, b1f, b2f, b3f, b4f, b5]
              rw [hv, hf]
              refine ⟨by simp, ?_⟩
              intro i hi
              rw [Option.some.injEq] at hi
              subst hi
              simp [ruleKinds]
            · have b5f : ruleFails cfg r 5 = false := by simpa using b5
              have b5e : (cfg.bodyNotContains.any (fun s => goContains r.body s)) = false := by
                simpa [ruleFails] using b5f
              by_cases b6 : ruleFails cfg r 6 = true
              · have b6e : (match cfg.bodyRegex with
                    | none => false
                    | some matcher => !matcher r.body) = true := by
                  simpa [ruleFails] using b6
                have hv : validate cfg r = ⟨false, "body_regex"⟩ := by
                  simp [validate, h0, validateStatusCode_eq, b1e, validateResponseTime_eq, b2e,
                    validateResponseSize_eq, b3e, validateBody_eq, b4e, b5e, b6e]
                have hf : firstFailing cfg r = some 6 := by
                  simp [firstFailing, b0f, b1f, b2f, b3f, b4f, b5f, b6]
                rw [hv, hf]
                refine ⟨by simp, ?_⟩
                intro i hi
                rw [Option.some.injEq] at hi
                subst hi
                simp [ruleKinds]
              · have b6f : ruleFails cfg r 6 = false := by simpa using b6
                have b6e : (match cfg.bodyRegex with
                    | none => false
                    | some matcher => !matcher r.body) = false := by
                  simpa [ruleFails] using b6f
                by_cases b7 : ruleFails cfg r 7 = true
                · have b7e : (match cfg.bodyJSONPath with
                      | none => false
                      | some query => !validateJSONPath r.body query) = true := by
                    simpa [ruleFails] using b7
                  have hv : validate cfg r = ⟨false, "body_json_path"⟩ := by
                    simp [validate, h0, validateStatusCode_eq, b1e, validateResponseTime_eq,
                      b2e, validateResponseSize_eq, b3e, validateBody_eq, b4e, b5e, b6e, b7e]
                  have hf : firstFailing cfg r = some 7 := by
                    simp [firstFailing, b0f, b1f, b2f, b3f, b4f, b5f, b6f, b7]
                  rw [hv, hf]
                  refine ⟨by simp, ?_⟩
                  intro i hi
                  rw [Option.some.injEq] at hi
                  subst hi
                  simp [ruleKinds]
                · have b7f : ruleFails cfg r 7 = false := by simpa using b7
                  have b7e : (match cfg.bodyJSONPath with
                      | none => false
                      | some query => !validateJSONPath r.body query) = false := by
                    simpa [ruleFails] using b7f
                  by_cases b8 : ruleFails cfg r 8 = true
                  · have b8e : (cfg.headers.any
                        (fun kv => (lookupStr r.headers kv.1).elim true
                          (fun v => v ≠ kv.2))) = true := by
                      simpa [ruleFails] using b8
                    have h8 := (validateHeaders_spec cfg r.headers).2 b8e
                    have hv : validate cfg r = validateHeaders cfg r.headers := by
                      simp [validate, h0, validateStatusCode_eq, b1e, validateResponseTime_eq,
                        b2e, validateResponseSize_eq, b3e, validateBody_eq, b4e, b5e, b6e, b7e,
                        h8.1]
                    have hf : firstFailing cfg r = some 8 := by
                      simp [firstFailing, b0f, b1f, b2f, b3f, b4f, b5f, b6f, b7f, b8]
                    rw [hv, hf]
                    refine ⟨by simp [h8.1], ?_⟩
                    intro i hi
                    rw [Option.some.injEq] at hi
                    subst hi
                    refine ⟨h8.1, ?_⟩
                    rcases h8.2 with h | h <;> simp [ruleKinds, h]
                  · have b8f : ruleFails cfg r 8 = false := by simpa using b8
                    have b8e : (cfg.headers.any
                        (fun kv => (lookupStr r.headers kv.1).elim true
                          (fun v => v ≠ kv.2))) = false := by
                      simpa [ruleFails] using b8f
                    have h8 := (validateHeaders_spec cfg r.headers).1 b8e
                    have hv : validate cfg r = ⟨true, ""⟩ := by
                      simp [validate, h0, validateStatusCode_eq, b1e, validateResponseTime_eq,
                        b2e, validateResponseSize_eq, b3e, validateBody_eq, b4e, b5e, b6e, b7e,
                        h8]
                    have hf : firstFailing cfg r = none := by
                      simp [firstFailing, b0f, b1f, b2f, b3f, b4f, b5f, b6f, b7f, b8f]
                    rw [hv, hf]
                    refine ⟨by simp, ?_⟩
                    intro i hi
                    simp at hi

/-- A rule set expecting status 200 and a body containing "ok". -/
def vCfgW : ValidationConfig :=
  { statusCodes := [200], responseTimeMax := none
    bodyContains := [['o', 'k']], bodyNotContains := []
    bodyRegex := none, bodyJSONPath := none
    headers := [], minResponseSize := 0, maxResponseSize := 0 }

/-- A status-500 response with an empty body: it violates both the
status-code rule and the body-contains rule of `vCfgW`. -/
def vRespW : GoResponse :=
  { statusCode := 500, headers := [], body := [], responseTime := 0
    contentLength := 0, error := none }

/-- C7 witness: on a response failing both the status-code rule and a body
rule, the validator reports only the status_code kind — the earliest
failing rule wins. -/
theorem validator_first_failing_rule_witness :
    (validate vCfgW vRespW).passed = false ∧
    (validate vCfgW vRespW).errorType ∈ ruleKinds 1 :=
  (validator_first_failing_rule vCfgW vRespW).2 1 (by decide)
